import Mathlib

/-!
Verification development for the TaskFlow backend (Django REST application).

The definitions below are a shallow embedding of the data model
(`core/models.py`), the serializer logic (`core/serializers.py`) and the
view logic (`core/views.py`).  The relational store is a record of lists;
ORM queryset operations become list filters; a request handler becomes a
function from a store (plus request data) to an `Except` of a new store
and/or a response value.  Timestamps are integers (seconds); `timedelta(days=7)`
is `7 * 86400` seconds.
-/

namespace TaskFlow

/-- Embedding of `User.ROLE_CHOICES` in `models.py`: the elevated role is `scrum_master`,
the plain role is `employee`. -/
inductive Role where
  | scrum_master
  | employee
deriving DecidableEq, Repr

/-- Embedding of `Task.STATUS_CHOICES` in `models.py`. -/
inductive Status where
  | todo
  | in_progress
  | code_review
  | done
deriving DecidableEq, Repr

/-- Embedding of `Task.PRIORITY_CHOICES` in `models.py`. -/
inductive Priority where
  | low
  | medium
  | high
  | urgent
deriving DecidableEq, Repr

/-- Embedding of `ActivityLog.ACTION_CHOICES` in `models.py`. -/
inductive Action where
  | created
  | updated
  | status_changed
  | assigned
  | commented
  | completed
deriving DecidableEq, Repr

/-- The stored string code of a status (first component of each
`STATUS_CHOICES` pair). -/
def Status.code : Status → String
  | .todo => "todo"
  | .in_progress => "in_progress"
  | .code_review => "code_review"
  | .done => "done"

/-- The human-readable display name of a status (second component of each
`STATUS_CHOICES` pair). -/
def Status.display : Status → String
  | .todo => "To Do"
  | .in_progress => "In Progress"
  | .code_review => "Code Review"
  | .done => "Done"

/-- The four status values in declaration order (iteration order of
`Task.STATUS_CHOICES`). -/
def Status.all : List Status := [.todo, .in_progress, .code_review, .done]

/-- The four priority values in declaration order. -/
def Priority.all : List Priority := [.low, .medium, .high, .urgent]

/-- Embedding of the `User` model (claim-relevant fields). -/
structure User where
  id : Nat
  username : String
  role : Role
deriving DecidableEq, Repr

/-- Embedding of the `Project` model: `created_by` and `members` hold user
ids (the FK and the many-to-many respectively). -/
structure Project where
  id : Nat
  name : String
  created_by : Nat
  members : List Nat
deriving DecidableEq, Repr

/-- Embedding of the `Task` model.  `id` is the numeric primary key,
`task_id` the human-readable identifier generated by `Task.save`;
`project`, `created_by` hold foreign-key ids, `labels` label ids. -/
structure Task where
  id : Nat
  title : String
  description : String
  project : Nat
  assigned_to : Option Nat
  created_by : Nat
  status : Status
  priority : Priority
  labels : List Nat
  task_id : String
  updated_at : Int
deriving DecidableEq, Repr

/-- Embedding of the `Comment` model. -/
structure Comment where
  id : Nat
  task : Nat
  author : Nat
  content : String
  created_at : Int
deriving DecidableEq, Repr

/-- Embedding of the `ActivityLog` model (append-only audit record). -/
structure ActivityLog where
  task : Nat
  user : Nat
  action : Action
  description : String
  old_value : Option String
  new_value : Option String
deriving DecidableEq, Repr

/-- Embedding of the `UserBehavior` model (append-only analytics record). -/
structure UserBehavior where
  user : Nat
  action_type : String
  task : Option Nat
  timestamp : Int
deriving DecidableEq, Repr

/-- The relational store: one list per table.  `activity_logs` and
`behaviors` are kept newest-first, mirroring the models' reverse
chronological `Meta.ordering`. -/
structure Store where
  users : List User
  projects : List Project
  tasks : List Task
  comments : List Comment
  activity_logs : List ActivityLog
  behaviors : List UserBehavior
deriving DecidableEq, Repr

/-- The lookup `Model.objects.get(id=...)` for tasks: the first task with the given
primary key, if any (`Task.DoesNotExist` becomes `none`). -/
def Store.findTask (db : Store) (tid : Nat) : Option Task :=
  db.tasks.find? (fun t => t.id == tid)

/-- The lookup `Model.objects.get(id=...)` for projects. -/
def Store.findProject (db : Store) (pid : Nat) : Option Project :=
  db.projects.find? (fun p => p.id == pid)

/-- Whether the user with id `uid` is in the member set of the project the
task belongs to (the ORM lookup `project__members=user`).  A dangling
foreign key yields `false`. -/
def Store.taskProjectHasMember (db : Store) (t : Task) (uid : Nat) : Bool :=
  match db.findProject t.project with
  | some p => decide (uid ∈ p.members)
  | none => false

/-- Persisting a modified row (`instance.save()` on an existing task):
replace the task with the same primary key. -/
def saveTask (tasks : List Task) (t : Task) : List Task :=
  tasks.map (fun u => if u.id == t.id then t else u)

/-- Error taxonomy of the request layer (HTTP 400/403/404 plus the database
uniqueness violation). -/
inductive ApiError where
  | validationError
  | accessDenied
  | notFound
  | integrityError
deriving DecidableEq, Repr

/-- Number of tasks of the given project currently stored
(`Task.objects.filter(project=...).count()`). -/
def Store.projectTaskCount (db : Store) (pid : Nat) : Nat :=
  (db.tasks.filter (fun t => t.project == pid)).length

/-- Character-wise uppercase (Python's `str.upper()` on ASCII text). -/
def asciiUpper (s : String) : String := ⟨s.data.map Char.toUpper⟩

/-- The identifier-generation scheme of `Task.save` in `models.py`:
first three characters of the project name uppercased, a dash, and
(count of existing tasks in the project) + 1. -/
def genTaskId (db : Store) (p : Project) : String :=
  asciiUpper (p.name.take 3) ++ "-" ++ toString (db.projectTaskCount p.id + 1)

/-- Embedding of `Task.save` in `models.py`: generate `task_id` only when it is not yet
set, then persist.  (Only the field computation is modelled here; the
caller persists the returned row.) -/
def taskSave (db : Store) (t : Task) : Task :=
  if t.task_id == "" then
    match db.findProject t.project with
    | some p => { t with task_id := genTaskId db p }
    | none => t
  else t

/-- Writable fields of `TaskSerializer` on creation. -/
structure TaskCreateInput where
  title : String
  description : String
  project : Nat
  status : Status
  priority : Priority
  label_ids : List Nat
  assigned_to_id : Option Nat
deriving DecidableEq, Repr

/-- Fresh numeric primary key for a task row. -/
def Store.nextTaskPk (db : Store) : Nat :=
  db.tasks.foldl (fun m t => max m t.id) 0 + 1

/-- Fresh numeric primary key for a comment row. -/
def Store.nextCommentPk (db : Store) : Nat :=
  db.comments.foldl (fun m c => max m c.id) 0 + 1

/-- Embedding of `TaskSerializer.create` in `serializers.py` composed with `Task.save`:
create the row (generating `task_id`), set labels and assignee when
provided, and append one `created` activity log.  The database `unique=True`
constraint on `task_id` is modelled by refusing a duplicate identifier. -/
def createTask (db : Store) (now : Int) (created_by : Nat) (inp : TaskCreateInput) :
    Except ApiError (Store × Task) :=
  match db.findProject inp.project with
  | none => .error .validationError
  | some _ =>
    let t0 : Task :=
      { id := db.nextTaskPk, title := inp.title, description := inp.description,
        project := inp.project, assigned_to := none, created_by := created_by,
        status := inp.status, priority := inp.priority, labels := inp.label_ids,
        task_id := "", updated_at := now }
    let t1 := taskSave db t0
    if db.tasks.any (fun t => t.task_id == t1.task_id) then
      .error .integrityError
    else
      let t2 :=
        match inp.assigned_to_id with
        | some a => { t1 with assigned_to := some a }
        | none => t1
      let log : ActivityLog :=
        { task := t2.id, user := created_by, action := .created,
          description := "Task created: " ++ t2.title,
          old_value := none, new_value := none }
      .ok ({ db with tasks := db.tasks ++ [t2],
                     activity_logs := log :: db.activity_logs }, t2)

/-- Writable fields of `TaskSerializer` on update (`validated_data` plus the
two popped association keys).  `none` means the key was absent from the
request; `task_id` is among `read_only_fields` and therefore has no slot. -/
structure TaskChanges where
  title : Option String
  description : Option String
  status : Option Status
  priority : Option Priority
  label_ids : Option (List Nat)
  assigned_to_id : Option Nat
deriving DecidableEq, Repr

/-- The `setattr` loop of `TaskSerializer.update`: overwrite each field
present in `validated_data`. -/
def applyTaskFields (t : Task) (chg : TaskChanges) : Task :=
  { t with
    title := chg.title.getD t.title,
    description := chg.description.getD t.description,
    status := chg.status.getD t.status,
    priority := chg.priority.getD t.priority }

/-- Embedding of `TaskSerializer.update` in `serializers.py`: record old/new status,
apply field changes and save, set labels and assignee when provided, then
append a `status_changed` activity log only when the status changed. -/
def taskSerializerUpdate (db : Store) (now : Int) (actingUser : Nat) (instanceId : Nat)
    (chg : TaskChanges) : Except ApiError Store :=
  match db.findTask instanceId with
  | none => .error .notFound
  | some inst =>
    let old_status := inst.status
    let new_status := chg.status.getD old_status
    let t1 := taskSave db { applyTaskFields inst chg with updated_at := now }
    let t2 :=
      match chg.label_ids with
      | some ls => { t1 with labels := ls }
      | none => t1
    let t3 :=
      match chg.assigned_to_id with
      | some a => taskSave db { t2 with assigned_to := some a }
      | none => t2
    let db1 := { db with tasks := saveTask db.tasks t3 }
    if old_status ≠ new_status then
      let log : ActivityLog :=
        { task := t3.id, user := actingUser, action := .status_changed,
          description := "Status changed from " ++ old_status.code ++ " to " ++ new_status.code,
          old_value := some old_status.code, new_value := some new_status.code }
      .ok { db1 with activity_logs := log :: db1.activity_logs }
    else
      .ok db1

/-- Embedding of `TaskStatusUpdateView.patch` in `views.py` (the board-move path): look
the task up by id, set the new status and save, then append a
`status_changed` activity log and a `task_status_update` behavior event —
both unconditionally, with no comparison of old and new status. -/
def taskStatusUpdatePatch (db : Store) (now : Int) (requestUser : Nat) (task_pk : Nat)
    (new_status : Status) : Except ApiError Store :=
  match db.findTask task_pk with
  | none => .error .notFound
  | some task =>
    let old_status := task.status
    let task1 := taskSave db { task with status := new_status, updated_at := now }
    let db1 := { db with tasks := saveTask db.tasks task1 }
    let log : ActivityLog :=
      { task := task.id, user := requestUser, action := .status_changed,
        description := "Status changed from " ++ old_status.code ++ " to " ++ new_status.code,
        old_value := some old_status.code, new_value := some new_status.code }
    let beh : UserBehavior :=
      { user := requestUser, action_type := "task_status_update",
        task := some task.id, timestamp := now }
    .ok { db1 with activity_logs := log :: db1.activity_logs,
                   behaviors := beh :: db1.behaviors }

/-- Count of `status_changed` activity logs attached to a task. -/
def countStatusChanged (db : Store) (tid : Nat) : Nat :=
  (db.activity_logs.filter (fun l => l.task == tid && l.action == Action.status_changed)).length

/-- Count of `commented` activity logs attached to a task. -/
def countCommented (db : Store) (tid : Nat) : Nat :=
  (db.activity_logs.filter (fun l => l.task == tid && l.action == Action.commented)).length

/-- Embedding of `CommentListCreateView.perform_create` in `views.py`: look the task up
by id (a missing task raises `Task.DoesNotExist`, the store's not-found
signal), persist one comment, and append one `commented` activity log whose
description is the content truncated to 50 characters. -/
def commentPerformCreate (db : Store) (now : Int) (requestUser : Nat) (task_pk : Nat)
    (content : String) : Except ApiError Store :=
  match db.findTask task_pk with
  | none => .error .notFound
  | some task =>
    let c : Comment :=
      { id := db.nextCommentPk, task := task.id, author := requestUser,
        content := content, created_at := now }
    let log : ActivityLog :=
      { task := task.id, user := requestUser, action := .commented,
        description := "Added comment: " ++ content.take 50 ++ "...",
        old_value := none, new_value := none }
    .ok { db with comments := db.comments ++ [c],
                  activity_logs := log :: db.activity_logs }

/-- Embedding of `ProjectListCreateView.get_queryset` (also
`ProjectDetailView.get_queryset`) in `views.py`: a scrum master sees
projects they created or belong to; an employee sees projects they belong
to. -/
def projectListQueryset (db : Store) (u : User) : List Project :=
  if u.role == Role.scrum_master then
    db.projects.filter (fun p => p.created_by == u.id || decide (u.id ∈ p.members))
  else
    db.projects.filter (fun p => decide (u.id ∈ p.members))

/-- Embedding of `TaskDetailView.get_queryset` in `views.py`: a scrum master sees tasks
of projects they created (`project__created_by=user`); an employee sees
tasks of projects they belong to (`project__members=user`). -/
def taskDetailQueryset (db : Store) (u : User) : List Task :=
  if u.role == Role.scrum_master then
    db.tasks.filter (fun t =>
      match db.findProject t.project with
      | some p => p.created_by == u.id
      | none => false)
  else
    db.tasks.filter (fun t => db.taskProjectHasMember t u.id)

/-- Retrieval by primary key through a DRF `RetrieveAPIView`: the object is
looked up inside the scoped queryset; absence from it yields a 404. -/
def taskDetailRetrieve (db : Store) (u : User) (tid : Nat) : Option Task :=
  (taskDetailQueryset db u).find? (fun t => t.id == tid)

/-- Embedding of `CommentListCreateView.get_queryset` in `views.py`: all comments of the
task named in the URL, with no scoping by the requester. -/
def commentListQueryset (db : Store) (_u : User) (task_pk : Nat) : List Comment :=
  db.comments.filter (fun c => c.task == task_pk)

/-- Case-insensitive substring test, the `icontains` lookup of the ORM. -/
def icontainsB (hay q : String) : Bool :=
  decide (List.IsInfix q.toLower.toList hay.toLower.toList)

/-- Embedding of `search_tasks` in `views.py`: empty query short-circuits to an empty
list; otherwise filter on `title__icontains | description__icontains`,
optionally restrict to one project, restrict employees to projects they
belong to, and truncate to 20 rows. -/
def search_tasks (db : Store) (u : User) (q : String) (projectFilter : Option Nat) :
    List Task :=
  if q == "" then []
  else
    let qs1 := db.tasks.filter (fun t => icontainsB t.title q || icontainsB t.description q)
    let qs2 : List Task :=
      match projectFilter with
      | some pid => qs1.filter (fun t => t.project == pid)
      | none => qs1
    let qs3 : List Task :=
      if u.role == Role.employee then
        qs2.filter (fun t => db.taskProjectHasMember t u.id)
      else qs2
    qs3.take 20

/-- One status column of the kanban response: display name, task count and
the serialized tasks. -/
structure KanbanGroup where
  status : Status
  name : String
  count : Nat
  tasks : List Task
deriving DecidableEq, Repr

/-- Embedding of `kanban_board_data` in `views.py`: 404 when the project does not exist;
403 when an employee requester is not in the member set (the check is not
applied to scrum masters); otherwise one group per status value with that
project's tasks of that status and their count. -/
def kanban_board_data (db : Store) (u : User) (project_id : Nat) :
    Except ApiError (List KanbanGroup) :=
  match db.findProject project_id with
  | none => .error .notFound
  | some project =>
    if u.role == Role.employee && !(project.members.contains u.id) then
      .error .accessDenied
    else
      .ok (Status.all.map (fun sc =>
        let ts := db.tasks.filter (fun t => t.project == project.id && t.status == sc)
        { status := sc, name := sc.display, count := ts.length, tasks := ts }))

/-- Round half to even to the nearest integer (the tie-breaking rule of
Python's `round`). -/
def roundHalfEven (q : ℚ) : ℤ :=
  if q - ⌊q⌋ < 1/2 then ⌊q⌋
  else if 1/2 < q - ⌊q⌋ then ⌊q⌋ + 1
  else if ⌊q⌋ % 2 = 0 then ⌊q⌋ else ⌊q⌋ + 1

/-- Python's `round(x, 2)` over exact rationals. -/
def round2 (q : ℚ) : ℚ := (roundHalfEven (q * 100) : ℚ) / 100

/-- The base queryset of `AnalyticsDashboardView.get`: `Task.objects.all()`,
optionally filtered by the `project` query parameter.  No access scoping is
applied. -/
def dashboardTasks (db : Store) (projectFilter : Option Nat) : List Task :=
  match projectFilter with
  | some pid => db.tasks.filter (fun t => t.project == pid)
  | none => db.tasks

/-- The `overview` section of the dashboard response. -/
structure Overview where
  total_tasks : Nat
  completed_tasks : Nat
  in_progress_tasks : Nat
  todo_tasks : Nat
  completion_rate : ℚ
deriving DecidableEq, Repr

/-- The `user_metrics` section of the dashboard response. -/
structure UserMetrics where
  assigned_tasks : Nat
  completed_tasks : Nat
  in_progress_tasks : Nat
  productivity_score : ℚ
deriving DecidableEq, Repr

/-- The `recent_activity` section of the dashboard response. -/
structure RecentActivity where
  tasks_completed_this_week : Nat
  user_actions_this_week : Nat
  total_user_actions : Nat
deriving DecidableEq, Repr

/-- The `distributions` section of the dashboard response: group-by-count
over priority and over status. -/
structure Distributions where
  priority : List (Priority × Nat)
  status : List (Status × Nat)
deriving DecidableEq, Repr

/-- The full dashboard response. -/
structure DashboardResponse where
  overview : Overview
  user_metrics : UserMetrics
  recent_activity : RecentActivity
  distributions : Distributions
deriving DecidableEq, Repr

/-- Group-by-count over a task attribute (`values(...).annotate(count=Count)`):
one row per attribute value present in the task set. -/
def distributionOf {α : Type} [BEq α] (vals : List α) (tasks : List Task) (f : Task → α) :
    List (α × Nat) :=
  (vals.map (fun v => (v, (tasks.filter (fun t => f t == v)).length))).filter
    (fun p => p.2 != 0)

/-- The count of the requester's behavior rows in the trailing seven days
(`user_behaviors.filter(timestamp__gte=last_week).count()`). -/
def recentActionCount (db : Store) (userId : Nat) (now : Int) : Nat :=
  (db.behaviors.filter (fun b => b.user == userId && decide (now - 7 * 86400 ≤ b.timestamp))).length

/-- The `productivity_score` variable of `AnalyticsDashboardView.get`
before response rounding: initialized to 0 and only recomputed as
`min(100, completion_rate + recent_actions * 2)` when the task set is
non-empty. -/
def analyticsProductivityScore (db : Store) (userId : Nat) (projectFilter : Option Nat)
    (now : Int) : ℚ :=
  let total_tasks := (dashboardTasks db projectFilter).length
  let completed_tasks :=
    ((dashboardTasks db projectFilter).filter (fun t => t.status == Status.done)).length
  if total_tasks > 0 then
    min 100 ((completed_tasks : ℚ) / (total_tasks : ℚ) * 100
      + (recentActionCount db userId now : ℚ) * 2)
  else 0

/-- Embedding of `AnalyticsDashboardView.get` in `views.py`: the aggregate payload.
The overview and distributions depend only on the (optionally
project-filtered) task set; the user-specific sections additionally depend
on the requesting user. -/
def analyticsDashboard (db : Store) (userId : Nat) (projectFilter : Option Nat)
    (now : Int) : DashboardResponse :=
  let tasks_queryset := dashboardTasks db projectFilter
  let total_tasks := tasks_queryset.length
  let completed_tasks := (tasks_queryset.filter (fun t => t.status == Status.done)).length
  let in_progress_tasks :=
    (tasks_queryset.filter (fun t => t.status == Status.in_progress)).length
  let todo_tasks := (tasks_queryset.filter (fun t => t.status == Status.todo)).length
  let user_tasks := tasks_queryset.filter (fun t => t.assigned_to == some userId)
  let user_completed := (user_tasks.filter (fun t => t.status == Status.done)).length
  let user_in_progress := (user_tasks.filter (fun t => t.status == Status.in_progress)).length
  let last_week := now - 7 * 86400
  let recent_completions :=
    (tasks_queryset.filter (fun t =>
      t.status == Status.done && decide (last_week ≤ t.updated_at))).length
  let user_behaviors := db.behaviors.filter (fun b => b.user == userId)
  let total_actions := user_behaviors.length
  let recent_actions := recentActionCount db userId now
  { overview :=
      { total_tasks := total_tasks, completed_tasks := completed_tasks,
        in_progress_tasks := in_progress_tasks, todo_tasks := todo_tasks,
        completion_rate :=
          round2 (if total_tasks > 0 then
            (completed_tasks : ℚ) / (total_tasks : ℚ) * 100 else 0) },
    user_metrics :=
      { assigned_tasks := user_tasks.length, completed_tasks := user_completed,
        in_progress_tasks := user_in_progress,
        productivity_score := round2 (analyticsProductivityScore db userId projectFilter now) },
    recent_activity :=
      { tasks_completed_this_week := recent_completions,
        user_actions_this_week := recent_actions,
        total_user_actions := total_actions },
    distributions :=
      { priority := distributionOf Priority.all tasks_queryset (fun t => t.priority),
        status := distributionOf Status.all tasks_queryset (fun t => t.status) } }

/-- Sequential task creation: create `n` tasks with the same input one
after the other, collecting the assigned identifiers in creation order. -/
def seqTaskIds (creator : Nat) (inp : TaskCreateInput) : Nat → Store →
    Except ApiError (Store × List String)
  | 0, db => .ok (db, [])
  | n + 1, db =>
    match createTask db 0 creator inp with
    | .error e => .error e
    | .ok (db1, t) =>
      match seqTaskIds creator inp n db1 with
      | .error e => .error e
      | .ok (db2, rest) => .ok (db2, t.task_id :: rest)

/-! ### Concrete stores used by witnesses and counterexamples -/

/-- A scrum master (elevated role), user id 1. -/
def exScrum : User := { id := 1, username := "alice", role := Role.scrum_master }

/-- An employee who is NOT a member of the example project, user id 2. -/
def exOutsider : User := { id := 2, username := "bob", role := Role.employee }

/-- An employee who IS a member of the example project, user id 3. -/
def exMember : User := { id := 3, username := "carol", role := Role.employee }

/-- A project named Alpha, created by user 1, with member set {3}. -/
def exProject : Project :=
  { id := 1, name := "Alpha", created_by := 1, members := [3] }

/-- A task of project 1 with status `todo`. -/
def exTask : Task :=
  { id := 1, title := "Fix login", description := "login page bug",
    project := 1, assigned_to := some 3, created_by := 1,
    status := Status.todo, priority := Priority.medium, labels := [],
    task_id := "ALP-1", updated_at := 0 }

/-- A comment on task 1 authored by user 3. -/
def exComment : Comment :=
  { id := 1, task := 1, author := 3, content := "looks good", created_at := 0 }

/-- A store with one project, one `todo` task and one comment. -/
def exStore : Store :=
  { users := [exScrum, exOutsider, exMember], projects := [exProject],
    tasks := [exTask], comments := [exComment], activity_logs := [], behaviors := [] }

/-- A store with no tasks at all but one recent behavior event of user 2. -/
def exStoreNoTasks : Store :=
  { users := [exOutsider], projects := [], tasks := [], comments := [],
    activity_logs := [],
    behaviors := [{ user := 2, action_type := "user_login", task := none, timestamp := 0 }] }

/-- A store holding the project named Alpha and no tasks. -/
def exStoreEmptyAlpha : Store :=
  { users := [exScrum], projects := [exProject], tasks := [], comments := [],
    activity_logs := [], behaviors := [] }

/-- Creation input targeting project 1. -/
def exCreateInput : TaskCreateInput :=
  { title := "T", description := "", project := 1, status := Status.todo,
    priority := Priority.medium, label_ids := [], assigned_to_id := none }

/-- A field-update request that only moves the status to `done`. -/
def exChangesDone : TaskChanges :=
  { title := none, description := none, status := some Status.done,
    priority := none, label_ids := none, assigned_to_id := none }

/-- A project created by user 4 whose member set is {4}: the scrum master
(user 1) neither created it nor belongs to it. -/
def exProjectForeign : Project :=
  { id := 1, name := "Beta", created_by := 4, members := [4] }

/-- A store holding only the foreign project and one of its tasks. -/
def exStoreForeign : Store :=
  { users := [exScrum, exOutsider], projects := [exProjectForeign],
    tasks := [{ exTask with created_by := 4, assigned_to := none }],
    comments := [], activity_logs := [], behaviors := [] }

/-- A store with four tasks of statuses done, done, todo, in_progress. -/
def exStore4 : Store :=
  { users := [exScrum, exOutsider], projects := [exProject],
    tasks :=
      [ { exTask with id := 1, task_id := "ALP-1", status := Status.done },
        { exTask with id := 2, task_id := "ALP-2", status := Status.done },
        { exTask with id := 3, task_id := "ALP-3", status := Status.todo },
        { exTask with id := 4, task_id := "ALP-4", status := Status.in_progress } ],
    comments := [], activity_logs := [], behaviors := [] }

/-! ### Shared predicates for the audit-trail theorems -/

/-- The identifier-allocation contract of claim C2 for a creation against
store `db` targeting project `p`: the assigned identifier follows the
count-based scheme; successful creation preserves global uniqueness of
identifiers; neither update path ever changes an already-assigned
identifier; and five sequential creations in the empty Alpha project yield
suffixes 1..5. -/
def taskIdAllocationProp (db : Store) (now : Int) (creator : Nat)
    (inp : TaskCreateInput) (p : Project) : Prop :=
  (∀ db' t, createTask db now creator inp = .ok (db', t) →
    t.task_id = asciiUpper (p.name.take 3) ++ "-" ++ toString (db.projectTaskCount p.id + 1)) ∧
  (∀ db' t, createTask db now creator inp = .ok (db', t) →
    (db.tasks.map Task.task_id).Nodup → (db'.tasks.map Task.task_id).Nodup) ∧
  (∀ db0 : Store, ∀ now0 : Int, ∀ u tid : Nat, ∀ chg : TaskChanges, ∀ t0 : Task,
    ∀ db0' : Store, db0.findTask tid = some t0 → t0.task_id ≠ "" →
    taskSerializerUpdate db0 now0 u tid chg = .ok db0' →
    ∃ t1, db0'.findTask tid = some t1 ∧ t1.task_id = t0.task_id) ∧
  (∀ db0 : Store, ∀ now0 : Int, ∀ u tid : Nat, ∀ ns : Status, ∀ t0 : Task,
    ∀ db0' : Store, db0.findTask tid = some t0 → t0.task_id ≠ "" →
    taskStatusUpdatePatch db0 now0 u tid ns = .ok db0' →
    ∃ t1, db0'.findTask tid = some t1 ∧ t1.task_id = t0.task_id) ∧
  (seqTaskIds 1 exCreateInput 5 exStoreEmptyAlpha).toOption.map Prod.snd =
    some ["ALP-1", "ALP-2", "ALP-3", "ALP-4", "ALP-5"]

/-- Exactly one `status_changed` activity log was appended moving from `db`
to `db'`, attached to task `t`, with old/new value snapshots `old`/`new`. -/
def appendsOneStatusLog (db db' : Store) (t : Task) (old new : Status) : Prop :=
  ∃ l, db'.activity_logs = l :: db.activity_logs ∧
    l.action = Action.status_changed ∧ l.task = t.id ∧
    l.old_value = some old.code ∧ l.new_value = some new.code

/-! ### Helper lemmas -/

/-- The method `Task.save` never changes the primary key. -/
theorem taskSave_id (db : Store) (t : Task) : (taskSave db t).id = t.id := by
  unfold taskSave
  split
  · split <;> rfl
  · rfl

/-- The method `Task.save` is the identity on a row whose identifier is already set. -/
theorem taskSave_of_task_id_ne (db : Store) (t : Task) (h : t.task_id ≠ "") :
    taskSave db t = t := by
  unfold taskSave
  rw [if_neg (by simpa using h)]

/-- Replacing the row with a given primary key leaves `find?` by that key
pointing at the replacement. -/
theorem find?_saveTask (tasks : List Task) (t t' : Task)
    (h : tasks.find? (fun x => x.id == t.id) = some t) (hid : t'.id = t.id) :
    (saveTask tasks t').find? (fun x => x.id == t.id) = some t' := by
  induction tasks with
  | nil => simp [List.find?] at h
  | cons a l ih =>
    unfold saveTask
    rw [List.map_cons]
    by_cases ha : (a.id == t.id) = true
    · rw [if_pos (by rw [hid]; exact ha)]
      exact List.find?_cons_of_pos _ (by simp [hid])
    · rw [if_neg (by rw [hid]; exact ha)]
      rw [List.find?_cons_of_neg _ (by simpa using ha)]
      rw [List.find?_cons_of_neg _ (by simpa using ha)] at h
      exact ih h

/-- A successful `TaskSerializer.update` replaces exactly one task row,
keeping its primary key and (when already assigned) its identifier. -/
theorem taskSerializerUpdate_tasks (db : Store) (now : Int) (u tid : Nat)
    (chg : TaskChanges) (t : Task) (db' : Store) (hf : db.findTask tid = some t)
    (hup : taskSerializerUpdate db now u tid chg = .ok db') :
    ∃ t3, db'.tasks = saveTask db.tasks t3 ∧ t3.id = t.id ∧
      (t.task_id ≠ "" → t3.task_id = t.task_id) := by
  obtain ⟨cti, cde, cst, cpr, cli, cai⟩ := chg
  unfold taskSerializerUpdate at hup
  rw [hf] at hup
  dsimp only at hup
  cases cli <;> cases cai <;> dsimp only at hup <;>
    split at hup <;> rw [Except.ok.injEq] at hup <;> subst hup <;>
    exact ⟨_, rfl, by simp [taskSave_id, applyTaskFields],
      fun hne => by simp [taskSave_of_task_id_ne, applyTaskFields, hne]⟩

/-- A successful `TaskStatusUpdateView.patch` replaces exactly one task
row, keeping its primary key and (when already assigned) its identifier. -/
theorem taskStatusUpdatePatch_tasks (db : Store) (now : Int) (u tid : Nat)
    (ns : Status) (t : Task) (db' : Store) (hf : db.findTask tid = some t)
    (hup : taskStatusUpdatePatch db now u tid ns = .ok db') :
    ∃ t1, db'.tasks = saveTask db.tasks t1 ∧ t1.id = t.id ∧
      (t.task_id ≠ "" → t1.task_id = t.task_id) := by
  unfold taskStatusUpdatePatch at hup
  rw [hf] at hup
  dsimp only at hup
  rw [Except.ok.injEq] at hup
  subst hup
  exact ⟨_, rfl, taskSave_id _ _, fun hne => by
    simp [taskSave_of_task_id_ne, hne]⟩

/-- Characterization of a successful `createTask`: the new row is appended,
its identifier follows the generation scheme, and no prior row carried that
identifier. -/
theorem createTask_ok (db : Store) (now : Int) (creator : Nat) (inp : TaskCreateInput)
    (p : Project) (hp : db.findProject inp.project = some p)
    (db' : Store) (t : Task) (hup : createTask db now creator inp = .ok (db', t)) :
    db'.tasks = db.tasks ++ [t] ∧ t.task_id = genTaskId db p ∧
      (db.tasks.any (fun x => x.task_id == t.task_id)) = false := by
  unfold createTask at hup
  rw [hp] at hup
  dsimp only at hup
  split at hup
  · exact absurd hup (by simp)
  · rename_i hguard
    rw [Except.ok.injEq, Prod.mk.injEq] at hup
    obtain ⟨hdb, ht⟩ := hup
    subst hdb
    have hsave2 : (taskSave db
        { id := db.nextTaskPk, title := inp.title, description := inp.description,
          project := inp.project, assigned_to := none, created_by := creator,
          status := inp.status, priority := inp.priority, labels := inp.label_ids,
          task_id := "", updated_at := now }).task_id = genTaskId db p := by
      unfold taskSave
      rw [if_pos (by simp)]
      dsimp only
      rw [hp]
    cases hai : inp.assigned_to_id with
    | none =>
      rw [hai] at ht
      dsimp only at ht
      subst ht
      exact ⟨rfl, hsave2, by simpa using hguard⟩
    | some a =>
      rw [hai] at ht
      dsimp only at ht
      subst ht
      exact ⟨rfl, hsave2, by simpa using hguard⟩

/-- Rounding an integer-valued rational is the identity. -/
theorem roundHalfEven_intCast (n : ℤ) : roundHalfEven (n : ℚ) = n := by
  unfold roundHalfEven
  rw [Int.floor_intCast]
  rw [if_pos (by norm_num)]

/-- Rounding via `round(q, 2)` is the identity on rationals with at most two decimal
places. -/
theorem round2_of_int (q : ℚ) (n : ℤ) (h : q * 100 = (n : ℚ)) : round2 q = q := by
  unfold round2
  rw [h, roundHalfEven_intCast]
  have h100 : (100 : ℚ) ≠ 0 := by norm_num
  rw [div_eq_iff h100]
  exact h.symm

/-- When the total divides `completed * 10000`, the completion-rate
quotient has at most two decimals and survives rounding unchanged. -/
theorem round2_completion_exact (c t : Nat) (ht : 0 < t) (hd : t ∣ c * 10000) :
    round2 ((c : ℚ) / (t : ℚ) * 100) = (c : ℚ) / (t : ℚ) * 100 := by
  apply round2_of_int _ ((c * 10000 / t : ℕ) : ℤ)
  have ht0 : (t : ℚ) ≠ 0 := Nat.cast_ne_zero.mpr (Nat.pos_iff_ne_zero.mp ht)
  rw [Int.cast_natCast, Nat.cast_div hd ht0]
  push_cast
  field_simp
  ring

/-! ### Claim theorems -/

/-- Claim C1, counterexample: on the board-move path
(`TaskStatusUpdateView.patch`), submitting the status the task already has
(`todo` on a `todo` task) succeeds and appends one `status_changed`
activity log, where the claim requires zero. -/
theorem board_move_noop_appends_log :
    (exStore.findTask 1).map Task.status = some Status.todo ∧
    countStatusChanged exStore 1 = 0 ∧
    (taskStatusUpdatePatch exStore 0 1 1 Status.todo).toOption.map
      (fun db' => countStatusChanged db' 1) = some 1 := by
  refine ⟨rfl, rfl, ?_⟩
  decide

/-- Claim C1, amended: the general field-update path
(`TaskSerializer.update`) appends exactly one `status_changed` log with
matching old/new snapshots when the submitted status differs from the prior
status and zero logs when it is equal; the board-move path
(`TaskStatusUpdateView.patch`) appends exactly one `status_changed` log
with matching snapshots on every successful call, whether or not the
status actually changed. -/
theorem status_change_audit_amended (db : Store) (now : Int) (u tid : Nat)
    (chg : TaskChanges) (ns : Status) (t : Task) (h : db.findTask tid = some t) :
    (∃ db', taskSerializerUpdate db now u tid chg = .ok db' ∧
      (chg.status.getD t.status ≠ t.status →
        appendsOneStatusLog db db' t t.status (chg.status.getD t.status)) ∧
      (chg.status.getD t.status = t.status → db'.activity_logs = db.activity_logs)) ∧
    (∃ db', taskStatusUpdatePatch db now u tid ns = .ok db' ∧
      appendsOneStatusLog db db' t t.status ns) := by
  constructor
  · unfold taskSerializerUpdate
    rw [h]
    dsimp only
    by_cases hc : chg.status.getD t.status = t.status
    · rw [if_neg (by simp [hc])]
      exact ⟨_, rfl, fun hne => absurd hc hne, fun _ => rfl⟩
    · rw [if_pos (fun hh => hc hh.symm)]
      refine ⟨_, rfl, fun _ => ⟨_, rfl, rfl, ?_, rfl, rfl⟩, fun heq => absurd heq hc⟩
      cases hli : chg.label_ids <;> cases hai : chg.assigned_to_id <;>
        simp [hli, hai, taskSave_id, applyTaskFields]
  · unfold taskStatusUpdatePatch
    rw [h]
    dsimp only
    exact ⟨_, rfl, _, rfl, rfl, rfl, rfl, rfl⟩

/-- Claim C2: the assigned task identifier equals the first three
characters of the owning project's name uppercased, a dash, and (count of
existing tasks in that project) + 1; it is assigned at creation and never
changed by either update path; successful creation preserves global
uniqueness of identifiers (the store refuses duplicates); and five
sequential creations in an empty project yield suffixes 1..5. -/
theorem task_identifier_allocation (db : Store) (now : Int) (creator : Nat)
    (inp : TaskCreateInput) (p : Project) (hp : db.findProject inp.project = some p) :
    taskIdAllocationProp db now creator inp p := by
  refine ⟨?_, ?_, ?_, ?_, ?_⟩
  · intro db' t hup
    exact (createTask_ok db now creator inp p hp db' t hup).2.1
  · intro db' t hup hnd
    obtain ⟨htasks, _, hguard⟩ := createTask_ok db now creator inp p hp db' t hup
    rw [htasks, List.map_append, List.nodup_append]
    refine ⟨hnd, List.nodup_singleton _, ?_⟩
    intro a ha hb
    simp only [List.map_cons, List.map_nil, List.mem_singleton] at hb
    subst hb
    rw [List.mem_map] at ha
    obtain ⟨x, hx, hxid⟩ := ha
    have hno : ¬ ∃ x, x ∈ db.tasks ∧ (x.task_id == t.task_id) = true := by
      rw [← List.any_eq_true]
      simp [hguard]
    exact hno ⟨x, hx, by simp [hxid]⟩
  · intro db0 now0 u tid chg t0 db0' hf hne hup
    obtain ⟨t3, htasks, hid, htid⟩ := taskSerializerUpdate_tasks db0 now0 u tid chg t0 db0' hf hup
    have hf2 : List.find? (fun x : Task => x.id == tid) db0.tasks = some t0 := hf
    have htid_eq : t0.id = tid := by simpa using List.find?_some hf2
    subst htid_eq
    refine ⟨t3, ?_, htid hne⟩
    unfold Store.findTask
    rw [htasks]
    exact find?_saveTask db0.tasks t0 t3 hf hid
  · intro db0 now0 u tid ns t0 db0' hf hne hup
    obtain ⟨t1, htasks, hid, htid⟩ := taskStatusUpdatePatch_tasks db0 now0 u tid ns t0 db0' hf hup
    have hf2 : List.find? (fun x : Task => x.id == tid) db0.tasks = some t0 := hf
    have htid_eq : t0.id = tid := by simpa using List.find?_some hf2
    subst htid_eq
    refine ⟨t1, ?_, htid hne⟩
    unfold Store.findTask
    rw [htasks]
    exact find?_saveTask db0.tasks t0 t1 hf hid
  · decide

/-- Claim C2, witness: the allocation contract applied to the concrete
store holding the empty project Alpha. -/
theorem task_identifier_allocation_witness :
    exStoreEmptyAlpha.findProject exCreateInput.project = some exProject ∧
    taskIdAllocationProp exStoreEmptyAlpha 0 1 exCreateInput exProject :=
  ⟨rfl, task_identifier_allocation exStoreEmptyAlpha 0 1 exCreateInput exProject rfl⟩

/-- Claim C1, witness: the amended theorem applied to the concrete store,
moving task 1 from `todo` to `done` through both paths. -/
theorem status_change_audit_amended_witness :
    exStore.findTask 1 = some exTask ∧
    ((∃ db', taskSerializerUpdate exStore 0 1 1 exChangesDone = .ok db' ∧
      (exChangesDone.status.getD exTask.status ≠ exTask.status →
        appendsOneStatusLog exStore db' exTask exTask.status
          (exChangesDone.status.getD exTask.status)) ∧
      (exChangesDone.status.getD exTask.status = exTask.status →
        db'.activity_logs = exStore.activity_logs)) ∧
    (∃ db', taskStatusUpdatePatch exStore 0 1 1 Status.done = .ok db' ∧
      appendsOneStatusLog exStore db' exTask exTask.status Status.done)) :=
  ⟨rfl, status_change_audit_amended exStore 0 1 1 exChangesDone Status.done exTask rfl⟩

/-- Claim C3: adding a comment to an existing task appends exactly one
comment row and exactly one `commented` activity log whose description is
the content truncated to 50 characters; a missing task yields the
not-found outcome (`Task.DoesNotExist`). -/
theorem add_comment_audit (db : Store) (now : Int) (u tid : Nat) (content : String) :
    (db.findTask tid = none → commentPerformCreate db now u tid content = .error .notFound) ∧
    (∀ t, db.findTask tid = some t →
      ∃ db' c l, commentPerformCreate db now u tid content = .ok db' ∧
        db'.comments = db.comments ++ [c] ∧ c.task = t.id ∧ c.author = u ∧
        c.content = content ∧
        db'.activity_logs = l :: db.activity_logs ∧ l.action = Action.commented ∧
        l.task = t.id ∧
        l.description = "Added comment: " ++ content.take 50 ++ "...") := by
  constructor
  · intro h
    unfold commentPerformCreate
    rw [h]
  · intro t h
    unfold commentPerformCreate
    rw [h]
    exact ⟨_, _, _, rfl, rfl, rfl, rfl, rfl, rfl, rfl, rfl, rfl⟩

/-- Claim C3, witness: the comment contract applied to a store without the
task (not-found outcome) and to the concrete store holding task 1. -/
theorem add_comment_audit_witness :
    commentPerformCreate exStoreNoTasks 0 2 1 "hi" = .error .notFound ∧
    (∃ db' c l, commentPerformCreate exStore 0 2 1 "hello" = .ok db' ∧
      db'.comments = exStore.comments ++ [c] ∧ c.task = exTask.id ∧ c.author = 2 ∧
      c.content = "hello" ∧
      db'.activity_logs = l :: exStore.activity_logs ∧ l.action = Action.commented ∧
      l.task = exTask.id ∧
      l.description = "Added comment: " ++ "hello".take 50 ++ "...") :=
  ⟨(add_comment_audit exStoreNoTasks 0 2 1 "hi").1 rfl,
   (add_comment_audit exStore 0 2 1 "hello").2 exTask rfl⟩

/-- Claim C4, counterexample: with zero tasks and one behavior event in the
trailing week, the code reports a productivity score of 0, while the
claimed formula `min(100, completion_rate + recent_action_count * 2)`
yields 2. -/
theorem productivity_score_empty_set_counterexample :
    analyticsProductivityScore exStoreNoTasks 2 none 0 = 0 ∧
    recentActionCount exStoreNoTasks 2 0 = 1 ∧
    min (100 : ℚ) (0 + (recentActionCount exStoreNoTasks 2 0 : ℚ) * 2) = 2 ∧
    (0 : ℚ) ≠ 2 := by
  refine ⟨rfl, rfl, ?_, by norm_num⟩
  have h1 : recentActionCount exStoreNoTasks 2 0 = 1 := rfl
  rw [h1]
  norm_num

/-- Claim C4, amended: the productivity score equals
`min(100, completion_rate + recent_action_count * 2)` whenever the
(optionally project-filtered) task set is non-empty, and is 0 whenever
that task set is empty, regardless of recent actions; the response field
is that value rounded to two decimals. -/
theorem productivity_score_formula (db : Store) (u : Nat) (pf : Option Nat) (now : Int) :
    (0 < (dashboardTasks db pf).length →
      analyticsProductivityScore db u pf now =
        min 100
          ((((dashboardTasks db pf).filter (fun t => t.status == Status.done)).length : ℚ)
              / ((dashboardTasks db pf).length : ℚ) * 100
            + (recentActionCount db u now : ℚ) * 2)) ∧
    ((dashboardTasks db pf).length = 0 → analyticsProductivityScore db u pf now = 0) ∧
    (analyticsDashboard db u pf now).user_metrics.productivity_score =
      round2 (analyticsProductivityScore db u pf now) := by
  refine ⟨?_, ?_, rfl⟩
  · intro h
    unfold analyticsProductivityScore
    rw [if_pos h]
  · intro h
    unfold analyticsProductivityScore
    rw [if_neg (by omega)]

/-- Claim C4, witness: the amended formula applied to the concrete store
with four tasks (two of them done) and to the empty-task store. -/
theorem productivity_score_formula_witness :
    (0 < (dashboardTasks exStore4 none).length ∧
      analyticsProductivityScore exStore4 2 none 0 =
        min 100
          ((((dashboardTasks exStore4 none).filter (fun t => t.status == Status.done)).length : ℚ)
              / ((dashboardTasks exStore4 none).length : ℚ) * 100
            + (recentActionCount exStore4 2 0 : ℚ) * 2)) ∧
    ((dashboardTasks exStoreNoTasks none).length = 0 ∧
      analyticsProductivityScore exStoreNoTasks 2 none 0 = 0) :=
  ⟨⟨by decide, (productivity_score_formula exStore4 2 none 0).1 (by decide)⟩,
   ⟨rfl, (productivity_score_formula exStoreNoTasks 2 none 0).2.1 rfl⟩⟩

/-- Claim C5, counterexample: user 2 is an employee outside project 1's
member set, so task 1 is outside their visible set (direct retrieval
yields none); yet the comment-listing queryset returns task 1's comment to
them rather than an access-denied or not-found outcome. -/
theorem comment_listing_leaks_counterexample :
    exOutsider.role = Role.employee ∧
    (2 ∈ exProject.members) = False ∧
    taskDetailRetrieve exStore exOutsider 1 = none ∧
    commentListQueryset exStore exOutsider 1 = [exComment] := by
  refine ⟨rfl, by simp [exProject], ?_, rfl⟩
  decide

/-- Claim C5, amended: the comment-listing path applies no access scoping
at all — its result is independent of the requester, and it returns
exactly the stored comments bearing the requested task id, whether or not
the parent task is visible to the requester. -/
theorem comment_listing_unscoped (db : Store) (u1 u2 : User) (tid : Nat) :
    commentListQueryset db u1 tid = commentListQueryset db u2 tid ∧
    (∀ c ∈ commentListQueryset db u1 tid, c.task = tid) ∧
    (∀ c ∈ db.comments, c.task = tid → c ∈ commentListQueryset db u1 tid) := by
  refine ⟨rfl, ?_, ?_⟩
  · intro c hc
    have := (List.mem_filter.mp hc).2
    simpa using this
  · intro c hc hct
    exact List.mem_filter.mpr ⟨hc, by simp [hct]⟩

/-- Claim C5, witness: the unscoped comment listing evaluated between two
concrete requesters on the concrete store. -/
theorem comment_listing_unscoped_witness :
    (exComment ∈ commentListQueryset exStore exOutsider 1) ∧
    (exComment ∈ exStore.comments ∧ exComment.task = 1) ∧
    commentListQueryset exStore exOutsider 1 = commentListQueryset exStore exMember 1 :=
  ⟨(comment_listing_unscoped exStore exOutsider exMember 1).2.2 exComment
      (by decide) rfl,
   ⟨by decide, rfl⟩,
   (comment_listing_unscoped exStore exOutsider exMember 1).1⟩

/-- Claim C6: the overview reports the total, done, in-progress and todo
counts of the (optionally project-filtered) task set; the completion rate
is `completed / total * 100` (exactly so whenever the quotient has at most
two decimals, and rounded to two decimals otherwise) and 0 when the set is
empty; on four tasks with statuses done, done, todo, in_progress the
overview reports 2 completed of 4 total with completion rate 50. -/
theorem analytics_overview_counts (db : Store) (pf : Option Nat) (u : Nat) (now : Int) :
    (analyticsDashboard db u pf now).overview.total_tasks = (dashboardTasks db pf).length ∧
    (analyticsDashboard db u pf now).overview.completed_tasks =
      (dashboardTasks db pf).countP (fun t => t.status == Status.done) ∧
    (analyticsDashboard db u pf now).overview.in_progress_tasks =
      (dashboardTasks db pf).countP (fun t => t.status == Status.in_progress) ∧
    (analyticsDashboard db u pf now).overview.todo_tasks =
      (dashboardTasks db pf).countP (fun t => t.status == Status.todo) ∧
    ((dashboardTasks db pf).length = 0 →
      (analyticsDashboard db u pf now).overview.completion_rate = 0) ∧
    (0 < (dashboardTasks db pf).length →
      (analyticsDashboard db u pf now).overview.completion_rate =
        round2 (((dashboardTasks db pf).countP (fun t => t.status == Status.done) : ℚ)
          / ((dashboardTasks db pf).length : ℚ) * 100)) ∧
    (0 < (dashboardTasks db pf).length →
      (dashboardTasks db pf).length ∣
        (dashboardTasks db pf).countP (fun t => t.status == Status.done) * 10000 →
      (analyticsDashboard db u pf now).overview.completion_rate =
        ((dashboardTasks db pf).countP (fun t => t.status == Status.done) : ℚ)
          / ((dashboardTasks db pf).length : ℚ) * 100) ∧
    (analyticsDashboard exStore4 2 none 0).overview.completed_tasks = 2 ∧
    (analyticsDashboard exStore4 2 none 0).overview.total_tasks = 4 ∧
    (analyticsDashboard exStore4 2 none 0).overview.completion_rate = 50 := by
  have hcount : ∀ s : Status, ((dashboardTasks db pf).filter
      (fun t => t.status == s)).length =
      (dashboardTasks db pf).countP (fun t => t.status == s) :=
    fun s => (List.countP_eq_length_filter _ _).symm
  have hrate : (analyticsDashboard db u pf now).overview.completion_rate =
      round2 (if (dashboardTasks db pf).length > 0 then
        (((dashboardTasks db pf).filter (fun t => t.status == Status.done)).length : ℚ)
          / ((dashboardTasks db pf).length : ℚ) * 100 else 0) := rfl
  refine ⟨rfl, hcount Status.done, hcount Status.in_progress, hcount Status.todo,
    ?_, ?_, ?_, rfl, rfl, ?_⟩
  · intro h
    rw [hrate, if_neg (by omega)]
    exact round2_of_int 0 0 (by norm_num)
  · intro h
    rw [hrate, if_pos h, hcount Status.done]
  · intro h hd
    rw [hrate, if_pos h, hcount Status.done]
    exact round2_completion_exact _ _ h hd
  · have h50 : (analyticsDashboard exStore4 2 none 0).overview.completion_rate =
        round2 (((2 : ℕ) : ℚ) / ((4 : ℕ) : ℚ) * 100) := rfl
    rw [h50]
    have : ((2 : ℕ) : ℚ) / ((4 : ℕ) : ℚ) * 100 = 50 := by norm_num
    rw [this]
    exact round2_of_int 50 5000 (by norm_num)

/-- Claim C6, witness: the completion-rate clause applied to the concrete
four-task store. -/
theorem analytics_overview_counts_witness :
    0 < (dashboardTasks exStore4 none).length ∧
    (analyticsDashboard exStore4 2 none 0).overview.completion_rate =
      round2 (((dashboardTasks exStore4 none).countP (fun t => t.status == Status.done) : ℚ)
        / ((dashboardTasks exStore4 none).length : ℚ) * 100) :=
  ⟨by decide, (analytics_overview_counts exStore4 none 2 0).2.2.2.2.2.1 (by decide)⟩

/-- Claim C7: for an employee (member role), the tasks visible by direct
access are exactly those whose project's member set contains the user:
retrieval by id succeeds precisely when the user is in the member set of
the task's project, and a project whose member set excludes the user does
not appear in the user's project list. -/
theorem member_access_scoping (db : Store) (u : User) (hrole : u.role = Role.employee)
    (hids : (db.tasks.map Task.id).Nodup) :
    (∀ t : Task, t ∈ taskDetailQueryset db u ↔
      t ∈ db.tasks ∧ ∃ p, db.findProject t.project = some p ∧ u.id ∈ p.members) ∧
    (∀ t ∈ db.tasks,
      ((taskDetailRetrieve db u t.id).isSome = true ↔
        ∃ p, db.findProject t.project = some p ∧ u.id ∈ p.members)) ∧
    (∀ p ∈ db.projects, u.id ∉ p.members → p ∉ projectListQueryset db u) := by
  have hq : taskDetailQueryset db u =
      db.tasks.filter (fun t => db.taskProjectHasMember t u.id) := by
    unfold taskDetailQueryset
    rw [if_neg (by simp [hrole])]
  have hmem : ∀ t : Task, db.taskProjectHasMember t u.id = true ↔
      ∃ p, db.findProject t.project = some p ∧ u.id ∈ p.members := by
    intro t
    unfold Store.taskProjectHasMember
    cases hfp : db.findProject t.project <;> simp [hfp]
  have hchar : ∀ t : Task, t ∈ taskDetailQueryset db u ↔
      t ∈ db.tasks ∧ ∃ p, db.findProject t.project = some p ∧ u.id ∈ p.members := by
    intro t
    rw [hq, List.mem_filter]
    exact and_congr_right (fun _ => hmem t)
  refine ⟨hchar, ?_, ?_⟩
  · intro t ht
    unfold taskDetailRetrieve
    rw [List.find?_isSome]
    constructor
    · rintro ⟨x, hxq, hxid⟩
      have hx := (hchar x).mp hxq
      have hxeq : x = t :=
        List.inj_on_of_nodup_map hids hx.1 ht (by simpa using hxid)
      rw [← hxeq]
      exact hx.2
    · rintro ⟨p, hp, hm⟩
      exact ⟨t, (hchar t).mpr ⟨ht, p, hp, hm⟩, by simp⟩
  · intro p _ hnm hcontra
    unfold projectListQueryset at hcontra
    rw [if_neg (by simp [hrole])] at hcontra
    have := (List.mem_filter.mp hcontra).2
    simp at this
    exact hnm this

/-- Claim C7, witness: the scoping rules applied to the concrete store,
for the employee outside project 1's member set. -/
theorem member_access_scoping_witness :
    exOutsider.role = Role.employee ∧
    (exStore.tasks.map Task.id).Nodup ∧
    (∀ t : Task, t ∈ taskDetailQueryset exStore exOutsider ↔
      t ∈ exStore.tasks ∧
        ∃ p, exStore.findProject t.project = some p ∧ exOutsider.id ∈ p.members) :=
  ⟨rfl, by decide,
   (member_access_scoping exStore exOutsider rfl (by decide)).1⟩

/-- Claim C8: for a non-empty query, task search returns at most 20 tasks,
and every returned task contains the query case-insensitively in its title
or in its description. -/
theorem search_bounded_and_matching (db : Store) (u : User) (q : String)
    (pf : Option Nat) (hq : q ≠ "") :
    (search_tasks db u q pf).length ≤ 20 ∧
    ∀ t ∈ search_tasks db u q pf,
      List.IsInfix q.toLower.toList t.title.toLower.toList ∨
      List.IsInfix q.toLower.toList t.description.toLower.toList := by
  have hsb : search_tasks db u q pf =
      (if u.role == Role.employee then
        ((match pf with
          | some pid =>
            (db.tasks.filter
              (fun t => icontainsB t.title q || icontainsB t.description q)).filter
                (fun t => t.project == pid)
          | none =>
            db.tasks.filter
              (fun t => icontainsB t.title q || icontainsB t.description q)) :
          List Task).filter (fun t => db.taskProjectHasMember t u.id)
      else
        (match pf with
          | some pid =>
            (db.tasks.filter
              (fun t => icontainsB t.title q || icontainsB t.description q)).filter
                (fun t => t.project == pid)
          | none =>
            db.tasks.filter
              (fun t => icontainsB t.title q || icontainsB t.description q))).take 20 := by
    unfold search_tasks
    rw [if_neg (by simpa using hq)]
  constructor
  · rw [hsb]
    rw [List.length_take]
    exact min_le_left _ _
  · intro t htm
    rw [hsb] at htm
    have h1 := List.mem_of_mem_take htm
    have h2 : t ∈ db.tasks.filter
        (fun t => icontainsB t.title q || icontainsB t.description q) := by
      split at h1
      · have h3 := (List.mem_filter.mp h1).1
        cases pf <;> first | exact h3 | exact (List.mem_filter.mp h3).1
      · cases pf <;> first | exact h1 | exact (List.mem_filter.mp h1).1
    have hpred := (List.mem_filter.mp h2).2
    rw [Bool.or_eq_true] at hpred
    unfold icontainsB at hpred
    rcases hpred with h | h
    · exact Or.inl (of_decide_eq_true h)
    · exact Or.inr (of_decide_eq_true h)

/-- Claim C8, witness: the search contract applied to the concrete store
with the query "login". -/
theorem search_bounded_and_matching_witness :
    ("login" ≠ "") ∧
    (search_tasks exStore exScrum "login" none).length ≤ 20 ∧
    ∀ t ∈ search_tasks exStore exScrum "login" none,
      List.IsInfix "login".toLower.toList t.title.toLower.toList ∨
      List.IsInfix "login".toLower.toList t.description.toLower.toList :=
  ⟨by decide, search_bounded_and_matching exStore exScrum "login" none (by decide)⟩

/-- Claim C9: the overview and distributions sections of the analytics
dashboard are computed without access scoping — they are identical for any
two requesters issuing the same request against the same store. -/
theorem dashboard_overview_requester_blind (db : Store) (pf : Option Nat) (now : Int)
    (u1 u2 : Nat) :
    (analyticsDashboard db u1 pf now).overview = (analyticsDashboard db u2 pf now).overview ∧
    (analyticsDashboard db u1 pf now).distributions =
      (analyticsDashboard db u2 pf now).distributions :=
  ⟨rfl, rfl⟩

/-- Claim C10: the kanban board's membership check applies only to
employees — a scrum master receives the full four-group board of any
existing project, creator or not, member or not; an employee outside the
member set is refused with access denied; an employee inside the member
set receives the board. -/
theorem kanban_membership_check_scope (db : Store) (pid : Nat) (project : Project)
    (hp : db.findProject pid = some project)
    (sm emp : User) (hsm : sm.role = Role.scrum_master) (hemp : emp.role = Role.employee) :
    (∃ groups, kanban_board_data db sm pid = .ok groups ∧
      groups.length = 4 ∧
      (∀ g ∈ groups, g.count = g.tasks.length ∧
        g.tasks = db.tasks.filter
          (fun t => t.project == project.id && t.status == g.status)) ∧
      (∀ s : Status, ∃ g ∈ groups, g.status = s)) ∧
    (emp.id ∉ project.members → kanban_board_data db emp pid = .error .accessDenied) ∧
    (emp.id ∈ project.members → ∃ groups, kanban_board_data db emp pid = .ok groups) := by
  refine ⟨?_, ?_, ?_⟩
  · unfold kanban_board_data
    rw [hp]
    dsimp only
    rw [if_neg (by simp [hsm])]
    refine ⟨_, rfl, rfl, ?_, ?_⟩
    · intro g hg
      rw [List.mem_map] at hg
      obtain ⟨s, _, hgs⟩ := hg
      subst hgs
      exact ⟨rfl, rfl⟩
    · intro s
      refine ⟨_, List.mem_map.mpr ⟨s, ?_, rfl⟩, rfl⟩
      cases s <;> decide
  · intro hnm
    unfold kanban_board_data
    rw [hp]
    dsimp only
    rw [if_pos]
    rw [Bool.and_eq_true]
    constructor
    · simp [hemp]
    · simp [List.elem_iff, hnm]
  · intro hm
    unfold kanban_board_data
    rw [hp]
    dsimp only
    rw [if_neg]
    · exact ⟨_, rfl⟩
    · rw [Bool.and_eq_true]
      rintro ⟨-, h2⟩
      simp [List.elem_iff, hm] at h2

/-- Claim C10, witness: the kanban access rules applied to the concrete
store: the scrum master is neither creator nor member of a foreign
project, yet receives the board; employees are gated on membership. -/
theorem kanban_membership_check_scope_witness :
    exStoreForeign.findProject 1 = some exProjectForeign ∧
    exScrum.role = Role.scrum_master ∧
    exOutsider.role = Role.employee ∧
    exScrum.id ≠ exProjectForeign.created_by ∧
    exScrum.id ∉ exProjectForeign.members ∧
    ((∃ groups, kanban_board_data exStoreForeign exScrum 1 = .ok groups ∧
      groups.length = 4 ∧
      (∀ g ∈ groups, g.count = g.tasks.length ∧
        g.tasks = exStoreForeign.tasks.filter
          (fun t => t.project == exProjectForeign.id && t.status == g.status)) ∧
      (∀ s : Status, ∃ g ∈ groups, g.status = s)) ∧
    (exOutsider.id ∉ exProjectForeign.members →
      kanban_board_data exStoreForeign exOutsider 1 = .error .accessDenied) ∧
    (exOutsider.id ∈ exProjectForeign.members →
      ∃ groups, kanban_board_data exStoreForeign exOutsider 1 = .ok groups)) :=
  ⟨rfl, rfl, rfl, by decide, by decide,
   kanban_membership_check_scope exStoreForeign 1 exProjectForeign rfl
     exScrum exOutsider rfl rfl⟩

end TaskFlow
